import Mathlib

/-!
Verification of the ETL pipeline in backend/etl/collectGameData.py.

The Python script is shallowly embedded as executable Lean definitions:

* `normalize_column_names` mirrors the function of the same name
  (lines 21-44 of the source): for each canonical target field, taken in
  the fixed dictionary-insertion order, it scans source column names in
  their given order and binds the first column whose lowered and stripped
  name equals a lowered alias of that field; when no column matches it
  fails at once, naming the field.
* `clean_data` mirrors lines 47-63: object-dtype columns are stringified
  and stripped, the date column is parsed with coercion of failures to
  null, and the pts / opp_pts columns are cast to numbers with coercion
  of failures to null.  Pandas dataframes are modelled column-wise: a
  column is an object, datetime or numeric column of optional cells.
* `runMain` mirrors the control flow of `main` (lines 66-174): download,
  CSV discovery, per-file load and schema resolution (fail-fast), the
  concatenation / drop_duplicates step that only deduplicates when more
  than one file was found, cleaning, the SQLite write, and the read-back
  verification step that prints the read-back count without comparing it
  to the written count.  External effects (the Kaggle download, the file
  system, SQLite) are supplied as an `Env` oracle; informational prints
  are modelled only where an error or warning path depends on them.

String lowering, stripping and the date / integer parsers model the
corresponding Python and pandas library behaviour over ASCII data.
-/

namespace CbbETL

/-- Decidable equality for Except results, used to evaluate the model on
concrete inputs. -/
instance {ε α : Type} [DecidableEq ε] [DecidableEq α] : DecidableEq (Except ε α) := fun x y =>
  match x, y with
  | .error a, .error b =>
      if h : a = b then .isTrue (by rw [h])
      else .isFalse (by intro hc; injection hc; contradiction)
  | .error _, .ok _ => .isFalse (fun hc => Except.noConfusion hc)
  | .ok _, .error _ => .isFalse (fun hc => Except.noConfusion hc)
  | .ok a, .ok b =>
      if h : a = b then .isTrue (by rw [h])
      else .isFalse (by intro hc; injection hc; contradiction)

/-- ASCII whitespace characters recognised by the model of Python
str.strip. -/
def isPyWS (c : Char) : Bool :=
  c == ' ' || c == '\t' || c == '\n' || c == '\r' || c == '\x0b' || c == '\x0c'

/-- Python str.strip on a character list: remove leading and trailing
whitespace. -/
def stripList (l : List Char) : List Char :=
  ((l.dropWhile isPyWS).reverse.dropWhile isPyWS).reverse

/-- Python str.strip, modelled over the character list of the string. -/
def pyStrip (s : String) : String := ⟨stripList s.data⟩

/-- Python str.lower on one ASCII character. -/
def charLower (c : Char) : Char :=
  if 65 ≤ c.toNat && c.toNat ≤ 90 then Char.ofNat (c.toNat + 32) else c

/-- Python str.lower, modelled for ASCII strings. -/
def pyLower (s : String) : String := ⟨s.data.map charLower⟩

/-- The normalisation col.lower().strip() applied to a source column name
in normalize_column_names (line 37 of the source). -/
def pyNorm (s : String) : String := pyStrip (pyLower s)

/-- The seven canonical fields of the target schema. -/
inductive Field where
  | team_name | date | site | opp_name | w_l | pts | opp_pts
deriving DecidableEq

/-- The alias table target_columns of normalize_column_names
(lines 24-32 of the source), keyed by canonical field. -/
def target_columns : Field → List String
  | .team_name => ["team", "team_name", "teamname"]
  | .date => ["date", "data", "game_date", "gamedate"]
  | .site => ["site", "location", "venue"]
  | .opp_name => ["opp_name", "opponent", "opp", "opposing_team"]
  | .w_l => ["w_l", "wl", "result", "win_loss"]
  | .pts => ["pts", "points", "score", "team_score"]
  | .opp_pts => ["opp_pts", "opp_points", "opponent_points", "opp_score"]

/-- The canonical fields in the dictionary-insertion order in which
normalize_column_names iterates over them (and the column order
target_order of line 118 of the source). -/
def fieldOrder : List Field :=
  [.team_name, .date, .site, .opp_name, .w_l, .pts, .opp_pts]

/-- Line 37 of the source: the lowered, stripped source column name is a
member of the lowered alias list of the field. -/
def matchesField (col : String) (f : Field) : Bool :=
  (target_columns f).any (fun a => pyNorm col == pyLower a)

/-- The inner loop of lines 36-40: the first source column, in the given
order, matching an alias of the field. -/
def findCol (cols : List String) (f : Field) : Option String :=
  cols.find? (fun c => matchesField c f)

/-- The outer loop of lines 34-42 over a list of target fields: bind the
first matching column of each field in turn, failing at once with the
first field for which no column matches. -/
def normAux (cols : List String) : List Field → Except Field (List (String × Field))
  | [] => .ok []
  | f :: fs =>
    match findCol cols f with
    | none => .error f
    | some c => (normAux cols fs).map (fun m => (c, f) :: m)

/-- normalize_column_names (lines 21-44 of the source).  A successful
result is the column mapping as an association list in insertion order;
a failure names the first canonical field with no matching column. -/
def normalize_column_names (cols : List String) : Except Field (List (String × Field)) :=
  normAux cols fieldOrder

/-- The first canonical field, in iteration order, for which no source
column matches any alias. -/
def firstUnmet (cols : List String) : Option Field :=
  fieldOrder.find? (fun f => (findCol cols f).isNone)

/-- Read a nonempty all-digit character list as a natural number. -/
def digitsToNat (l : List Char) : Option Nat :=
  if l ≠ [] && l.all Char.isDigit then
    some (l.foldl (fun n c => 10 * n + (c.toNat - 48)) 0)
  else none

/-- Split a character list on the dash character. -/
def splitDash (l : List Char) : List (List Char) :=
  l.foldr
    (fun c acc =>
      if c = '-' then [] :: acc
      else
        match acc with
        | [] => [[c]]
        | g :: gs => (c :: g) :: gs)
    [[]]

/-- Model of pd.to_datetime on one cell (line 56 of the source, with
errors coerced to null): an ISO year-month-day string parses to the code
y * 10000 + m * 100 + d; anything else yields none, as errors equal
coerce turns parse failures into NaT. -/
def parseDate (s : String) : Option Nat :=
  match splitDash s.data with
  | [y, m, d] =>
    match digitsToNat y, digitsToNat m, digitsToNat d with
    | some yn, some mn, some dn =>
      if 1 ≤ mn && mn ≤ 12 && 1 ≤ dn && dn ≤ 31 then
        some (yn * 10000 + mn * 100 + dn)
      else none
    | _, _, _ => none
  | _ => none

/-- Model of pd.to_numeric on one cell (lines 59-61 of the source, with
errors coerced to null): an optionally signed integer literal parses to
its value; anything else yields none, as errors equal coerce turns parse
failures into NaN. -/
def parseNum (s : String) : Option Int :=
  match s.data with
  | '-' :: rest => (digitsToNat rest).map (fun n => -(n : Int))
  | l => (digitsToNat l).map (fun n => (n : Int))

/-- One pandas column: an object column of optional strings, a datetime
column of optional date codes, or a numeric column of optional integers.
A missing value (NaN or NaT) is none. -/
inductive Col where
  | obj : List (Option String) → Col
  | dt : List (Option Nat) → Col
  | num : List (Option Int) → Col
deriving DecidableEq

/-- Number of cells in a column. -/
def Col.size : Col → Nat
  | .obj l => l.length
  | .dt l => l.length
  | .num l => l.length

/-- A dataframe restricted to the seven canonical columns, as handed to
clean_data by main (line 140 of the source). -/
structure Table where
  team_name : Col
  date : Col
  site : Col
  opp_name : Col
  w_l : Col
  pts : Col
  opp_pts : Col
deriving DecidableEq

/-- astype(str) on one object cell: a missing value is rendered as the
literal string nan, a string is kept. -/
def objStr : Option String → String
  | none => "nan"
  | some s => s

/-- Lines 50-52 of the source on one column: an object column is
stringified cell-wise with astype(str), which renders a missing value as
the literal string nan, and then stripped; columns of other dtypes are
not selected by select_dtypes(include equal object) and stay unchanged. -/
def astypeStrStrip : Col → Col
  | .obj cells => .obj (cells.map (fun v => some (pyStrip (objStr v))))
  | c => c

/-- Line 56 of the source on the date column: pd.to_datetime with errors
coerced.  An object column is parsed cell-wise, a datetime column is
returned unchanged, and a numeric column is reinterpreted as datetime
codes. -/
def to_datetime : Col → Col
  | .obj cells => .dt (cells.map (fun v => v.bind parseDate))
  | .dt cells => .dt cells
  | .num cells => .dt (cells.map (fun v => v.map Int.toNat))

/-- Lines 59-61 of the source on the pts and opp_pts columns:
pd.to_numeric with errors coerced.  An object column is parsed
cell-wise, a numeric column is returned unchanged, and a datetime column
is reinterpreted as its integer codes. -/
def to_numeric : Col → Col
  | .obj cells => .num (cells.map (fun v => v.bind parseNum))
  | .num cells => .num cells
  | .dt cells => .num (cells.map (fun v => v.map (fun n => (n : Int))))

/-- clean_data (lines 47-63 of the source): strip every object column,
then parse the date column and cast the pts and opp_pts columns. -/
def clean_data (t : Table) : Table :=
  let t1 : Table :=
    { team_name := astypeStrStrip t.team_name
      date := astypeStrStrip t.date
      site := astypeStrStrip t.site
      opp_name := astypeStrStrip t.opp_name
      w_l := astypeStrStrip t.w_l
      pts := astypeStrStrip t.pts
      opp_pts := astypeStrStrip t.opp_pts }
  { t1 with
      date := to_datetime t1.date
      pts := to_numeric t1.pts
      opp_pts := to_numeric t1.opp_pts }

/-- The seven column sizes of a table, in canonical order. -/
def colSizes (t : Table) : List Nat :=
  [t.team_name.size, t.date.size, t.site.size, t.opp_name.size,
   t.w_l.size, t.pts.size, t.opp_pts.size]

/-- One canonical record as selected from a raw source row by lines
115-119 of the source: the cell bound to each of the seven canonical
fields, still in raw string form. -/
structure CRow where
  team_name : Option String
  date : Option String
  site : Option String
  opp_name : Option String
  w_l : Option String
  pts : Option String
  opp_pts : Option String
deriving DecidableEq

/-- One raw CSV file as loaded by pd.read_csv (line 103 of the source):
a header row of column names and rows of optional string cells, cell i
of a row belonging to column i. -/
structure RawTable where
  columns : List String
  rows : List (List (Option String))
deriving DecidableEq

/-- One discovered CSV file: its name and the outcome of reading it,
none when pd.read_csv raises. -/
structure SrcFile where
  name : String
  content : Option RawTable
deriving DecidableEq

/-- The cell of a raw row belonging to the canonical field under a
column mapping: the mapping entry for the field names a source column,
and the cell at the position of that column is taken (the net effect of
the select, rename and reorder of lines 115-119 of the source). -/
def cellFor (m : List (String × Field)) (cols : List String) (r : List (Option String))
    (f : Field) : Option String :=
  match m.find? (fun p => p.2 == f) with
  | none => none
  | some p => (r.get? (cols.findIdx (fun c => c == p.1))).join

/-- Select one raw row into a canonical record under a column mapping. -/
def selectRow (m : List (String × Field)) (cols : List String)
    (r : List (Option String)) : CRow :=
  { team_name := cellFor m cols r .team_name
    date := cellFor m cols r .date
    site := cellFor m cols r .site
    opp_name := cellFor m cols r .opp_name
    w_l := cellFor m cols r .w_l
    pts := cellFor m cols r .pts
    opp_pts := cellFor m cols r .opp_pts }

/-- Select every row of a raw table into canonical records. -/
def selectRows (m : List (String × Field)) (raw : RawTable) : List CRow :=
  raw.rows.map (selectRow m raw.columns)

/-- Events of a run of main that the claims depend on: each fatal error
message, the saved-rows message, the verification count message and the
could-not-verify warning.  Purely informational prints are not
modelled. -/
inductive Event where
  | errDownload
  | errNoCsv
  | errMissingColumn (file : String) (f : Field)
  | errProcessing (file : String)
  | errWrite
  | savedRows (n : Nat)
  | verifiedCount (n : Nat)
  | warnVerify
  | completed
deriving DecidableEq

/-- Whether an event is printed as a warning by main: only the
could-not-verify message of line 166 of the source is. -/
def isWarning : Event → Bool
  | .warnVerify => true
  | _ => false

/-- The per-file loop of lines 100-125 of the source: load each file and
resolve its schema, stopping at the first failure with the error event it
prints before sys.exit(1).  On success, returns the selected canonical
tables in file order and total_rows_before. -/
def processFiles : List SrcFile → Except Event (List (List CRow) × Nat)
  | [] => .ok ([], 0)
  | f :: fs =>
    match f.content with
    | none => .error (.errProcessing f.name)
    | some raw =>
      match normalize_column_names raw.columns with
      | .error fld => .error (.errMissingColumn f.name fld)
      | .ok m =>
        match processFiles fs with
        | .error e => .error e
        | .ok (ts, tot) => .ok (selectRows m raw :: ts, raw.rows.length + tot)

/-- Whether the per-file loop fails on a file: pd.read_csv raises, or
schema resolution fails. -/
def badFile (f : SrcFile) : Bool :=
  match f.content with
  | none => true
  | some raw =>
    match normalize_column_names raw.columns with
    | .error _ => true
    | .ok _ => false

/-- drop_duplicates with the default keep equal first (line 132 of the
source), generalised over the rows already seen: keep each row not seen
before, in order. -/
def keepFirstsAux [DecidableEq α] (seen : List α) : List α → List α
  | [] => []
  | x :: xs => if x ∈ seen then keepFirstsAux seen xs else x :: keepFirstsAux (x :: seen) xs

/-- drop_duplicates, keeping the first occurrence of each row. -/
def keepFirsts [DecidableEq α] (l : List α) : List α := keepFirstsAux [] l

/-- Number of exact-duplicate rows: rows equal to an earlier row (or to
a row of seen). -/
def dupCountAux [DecidableEq α] (seen : List α) : List α → Nat
  | [] => 0
  | x :: xs => if x ∈ seen then 1 + dupCountAux seen xs else dupCountAux (x :: seen) xs

/-- Number of rows equal to some earlier row of the list. -/
def dupCount [DecidableEq α] (l : List α) : Nat := dupCountAux [] l

/-- Lines 127-136 of the source: with more than one dataframe,
concatenate and drop exact duplicates; with a single dataframe, use it
unchanged. -/
def combine (ts : List (List CRow)) : List CRow :=
  if 1 < ts.length then keepFirsts ts.flatten else ts.flatten

/-- View a list of canonical records as a column-wise dataframe of
object columns, as pd.concat of frames read from CSV text yields. -/
def toTable (rows : List CRow) : Table :=
  { team_name := .obj (rows.map CRow.team_name)
    date := .obj (rows.map CRow.date)
    site := .obj (rows.map CRow.site)
    opp_name := .obj (rows.map CRow.opp_name)
    w_l := .obj (rows.map CRow.w_l)
    pts := .obj (rows.map CRow.pts)
    opp_pts := .obj (rows.map CRow.opp_pts) }

/-- One SQL cell written by df.to_sql: text, date or numeric, each
possibly null. -/
inductive SqlCell where
  | s : Option String → SqlCell
  | d : Option Nat → SqlCell
  | n : Option Int → SqlCell
deriving DecidableEq

/-- The cells of one column as SQL values. -/
def colCells : Col → List SqlCell
  | .obj l => l.map .s
  | .dt l => l.map .d
  | .num l => l.map .n

/-- The rows of a table as written by df.to_sql (line 152 of the
source): row i holds the i-th cell of each of the seven columns. -/
def rowsOf (t : Table) : List (List SqlCell) :=
  (List.range t.team_name.size).map (fun i =>
    [t.team_name, t.date, t.site, t.opp_name, t.w_l, t.pts, t.opp_pts].map
      (fun c => ((colCells c).get? i).getD (.s none)))

/-- The write mode of the --if-exists option. -/
inductive Mode where
  | replace | append
deriving DecidableEq

/-- df.to_sql on the store content: replace discards prior content,
append adds the new rows after it. -/
def applyWrite (mode : Mode) (store : List (List SqlCell)) (new : List (List SqlCell)) :
    List (List SqlCell) :=
  match mode with
  | .replace => new
  | .append => store ++ new

/-- The outcomes of the external effects of one run of main: whether the
Kaggle download succeeds, the discovered CSV files with their read
outcomes, the write mode, the prior store content, whether df.to_sql
succeeds, and the read-back count query outcome (none when the query
raises). -/
structure Env where
  acqOk : Bool
  files : List SrcFile
  mode : Mode
  store0 : List (List SqlCell)
  writeOk : Bool
  verify : Option Nat
deriving DecidableEq

/-- The observable result of one run of main: the process exit code, the
modelled events in print order, whether df.to_sql was invoked, and the
final store content. -/
structure RunResult where
  exitCode : Nat
  events : List Event
  writeAttempted : Bool
  store : List (List SqlCell)
deriving DecidableEq

/-- main (lines 66-174 of the source): download, discover CSV files,
load and resolve each file fail-fast, combine (deduplicating only with
more than one file), clean, write to SQLite, then run the read-back
count query, whose result is printed without being compared to the
written row count; only a failing query prints a warning.  Every fatal
path calls sys.exit(1); all other paths end with exit code 0. -/
def runMain (env : Env) : RunResult :=
  if env.acqOk = false then
    { exitCode := 1, events := [.errDownload], writeAttempted := false, store := env.store0 }
  else if env.files.isEmpty then
    { exitCode := 1, events := [.errNoCsv], writeAttempted := false, store := env.store0 }
  else
    match processFiles env.files with
    | .error e =>
      { exitCode := 1, events := [e], writeAttempted := false, store := env.store0 }
    | .ok (ts, _tot) =>
      let cleaned := clean_data (toTable (combine ts))
      let written := rowsOf cleaned
      if env.writeOk = false then
        { exitCode := 1, events := [.errWrite], writeAttempted := true, store := env.store0 }
      else
        let store1 := applyWrite env.mode env.store0 written
        match env.verify with
        | some n =>
          { exitCode := 0, events := [.savedRows written.length, .verifiedCount n, .completed],
            writeAttempted := true, store := store1 }
        | none =>
          { exitCode := 0, events := [.savedRows written.length, .warnVerify, .completed],
            writeAttempted := true, store := store1 }

/-! ### Pipeline claim definitions -/

/-- A canonical record used in the deduplication claims. -/
def c1RowA : CRow :=
  { team_name := some "Duke", date := some "2023-01-01", site := some "Home",
    opp_name := some "UNC", w_l := some "W", pts := some "70", opp_pts := some "60" }

/-- A second, distinct canonical record used in the deduplication
claims. -/
def c1RowB : CRow :=
  { team_name := some "Kentucky", date := some "2023-01-02", site := some "Away",
    opp_name := some "Kansas", w_l := some "L", pts := some "61", opp_pts := some "75" }

/-- Two resolved source tables sharing one duplicated record. -/
def c1Tables : List (List CRow) := [[c1RowA, c1RowB], [c1RowA]]

/-- An environment whose single CSV file holds the same row twice. -/
def c1Env : Env :=
  { acqOk := true
    files := [{ name := "games.csv"
                content := some
                  { columns := ["team_name", "date", "site", "opp_name", "w_l", "pts", "opp_pts"]
                    rows := [[some "Duke", some "2023-01-01", some "Home", some "UNC",
                              some "W", some "70", some "60"],
                             [some "Duke", some "2023-01-01", some "Home", some "UNC",
                              some "W", some "70", some "60"]] } }]
    mode := .replace, store0 := [], writeOk := true, verify := some 2 }

/-- An environment writing one row whose read-back count query returns a
different count. -/
def c2Env : Env :=
  { acqOk := true
    files := [{ name := "games.csv"
                content := some
                  { columns := ["team_name", "date", "site", "opp_name", "w_l", "pts", "opp_pts"]
                    rows := [[some "Duke", some "2023-01-01", some "Home", some "UNC",
                              some "W", some "70", some "60"]] } }]
    mode := .replace, store0 := [], writeOk := true, verify := some 0 }

/-- An environment writing two rows whose read-back count query returns
one, used to witness the amended verification claim. -/
def c2wEnv : Env :=
  { acqOk := true
    files := [{ name := "games.csv"
                content := some
                  { columns := ["team_name", "date", "site", "opp_name", "w_l", "pts", "opp_pts"]
                    rows := [[some "Duke", some "2023-01-01", some "Home", some "UNC",
                              some "W", some "70", some "60"],
                             [some "Kentucky", some "2023-01-02", some "Away", some "Kansas",
                              some "L", some "61", some "75"]] } }]
    mode := .replace, store0 := [], writeOk := true, verify := some 1 }

/-- The resolved tables of the files of c2wEnv. -/
def c2wTables : List (List CRow) := [[c1RowA, c1RowB]]

/-- The condition named by the exit-code claim for one source: schema
resolution of a successfully read source fails. -/
def resolutionFails (f : SrcFile) : Bool :=
  match f.content with
  | none => false
  | some raw =>
    match normalize_column_names raw.columns with
    | .error _ => true
    | .ok _ => false

/-- An environment whose single CSV file cannot be read at all (the
pd.read_csv call raises), while acquisition, schema resolution and the
write oracle are all unproblematic. -/
def c7Env : Env :=
  { acqOk := true, files := [{ name := "bad.csv", content := none }]
    mode := .replace, store0 := [], writeOk := true, verify := some 0 }

/-- An environment whose single CSV file lacks most canonical columns,
with nonempty prior store content. -/
def c8Env : Env :=
  { acqOk := true
    files := [{ name := "bad.csv"
                content := some { columns := ["team"], rows := [[some "Duke"]] } }]
    mode := .replace, store0 := [[.s (some "old")]], writeOk := true, verify := some 9 }

/-! ### Helper lemmas about stripping -/

theorem dropWhile_head_false {p : α → Bool} {l : List α} {x : α} {xs : List α}
    (h : l.dropWhile p = x :: xs) : p x = false := by
  have hne : l.dropWhile p ≠ [] := by simp [h]
  have := List.head_dropWhile_not p l hne
  rwa [show (l.dropWhile p).head hne = x by simp [h]] at this

theorem dropWhile_idem (p : α → Bool) (l : List α) :
    (l.dropWhile p).dropWhile p = l.dropWhile p := by
  cases h : l.dropWhile p with
  | nil => simp
  | cons x xs =>
    have hx : p x = false := dropWhile_head_false h
    simp [List.dropWhile_cons, hx]

theorem dropWhile_length_le (p : α → Bool) (l : List α) :
    (l.dropWhile p).length ≤ l.length := by
  induction l with
  | nil => simp
  | cons x xs ih =>
    rw [List.dropWhile_cons]
    by_cases hx : p x = true
    · simp only [hx, if_true]
      exact Nat.le_trans ih (Nat.le_succ _)
    · simp [hx]

theorem prefix_dropWhile_self (p : α → Bool) (B r A : List α)
    (hA : A.dropWhile p = A) (hBr : B ++ r = A) : B.dropWhile p = B := by
  cases B with
  | nil => simp
  | cons b bs =>
    have hb : p b = false := by
      by_contra hb
      have hb' : p b = true := by revert hb; cases p b <;> simp
      have hA2 : A.dropWhile p = (bs ++ r).dropWhile p := by
        rw [← hBr, List.cons_append, List.dropWhile_cons_of_pos hb']
      have hlen : A.length ≤ (bs ++ r).length := by
        rw [← hA, hA2]; exact dropWhile_length_le p (bs ++ r)
      rw [← hBr] at hlen
      simp at hlen
    simp [List.dropWhile_cons, hb]

theorem stripList_dropWhile (l : List Char) :
    (stripList l).dropWhile isPyWS = stripList l := by
  apply prefix_dropWhile_self isPyWS (stripList l)
    (((l.dropWhile isPyWS).reverse.takeWhile isPyWS).reverse) (l.dropWhile isPyWS)
    (dropWhile_idem isPyWS l)
  unfold stripList
  rw [← List.reverse_append, List.takeWhile_append_dropWhile, List.reverse_reverse]

theorem stripList_idem (l : List Char) : stripList (stripList l) = stripList l := by
  show (((stripList l).dropWhile isPyWS).reverse.dropWhile isPyWS).reverse = stripList l
  rw [stripList_dropWhile]
  show ((stripList l).reverse.dropWhile isPyWS).reverse = stripList l
  unfold stripList
  rw [List.reverse_reverse, dropWhile_idem]

theorem pyStrip_idem (s : String) : pyStrip (pyStrip s) = pyStrip s := by
  unfold pyStrip
  rw [show (String.mk (stripList s.data)).data = stripList s.data from rfl, stripList_idem]

/-! ### Idempotence of clean_data -/

theorem astypeStrStrip_idem (c : Col) :
    astypeStrStrip (astypeStrStrip c) = astypeStrStrip c := by
  cases c with
  | obj l =>
    simp only [astypeStrStrip, List.map_map]
    have h : ((fun v => some (pyStrip (objStr v))) ∘ fun v => some (pyStrip (objStr v))) =
        fun v : Option String => some (pyStrip (objStr v)) := by
      funext v
      simp [Function.comp, objStr, pyStrip_idem]
    rw [h]
  | dt l => rfl
  | num l => rfl

theorem to_datetime_stable (c : Col) :
    to_datetime (astypeStrStrip (to_datetime c)) = to_datetime c := by
  cases c <;> rfl

theorem to_numeric_stable (c : Col) :
    to_numeric (astypeStrStrip (to_numeric c)) = to_numeric c := by
  cases c <;> rfl

/-! ### Lemmas about normalize_column_names -/

theorem exceptMap_error {ε α β : Type} (g : α → β) (e : Except ε α) (f : ε) :
    e.map g = .error f ↔ e = .error f := by
  cases e <;> simp [Except.map]

theorem field_mem_order (f : Field) : f ∈ fieldOrder := by
  cases f <;> decide

theorem fieldOrder_nodup : fieldOrder.Nodup := by decide

theorem alias_norm_fixed : ∀ f : Field, ∀ a ∈ target_columns f, pyNorm a = pyLower a := by
  intro f
  cases f <;> decide

theorem alias_lower_disjoint : ∀ x y : Field, x ≠ y →
    ∀ u ∈ target_columns x, ∀ v ∈ target_columns y, pyLower u ≠ pyLower v := by
  intro x y
  cases x <;> cases y <;> decide

/-- A column found by findCol matches the field searched for. -/
theorem findCol_matches {cols : List String} {f : Field} {c : String}
    (h : findCol cols f = some c) : matchesField c f = true := by
  unfold findCol at h
  have h2 := List.find?_some h
  simpa using h2

/-- The alias lists of distinct canonical fields are disjoint, so a
source column name can match at most one canonical field. -/
theorem matchesField_det (c : String) (f g : Field)
    (hf : matchesField c f = true) (hg : matchesField c g = true) : f = g := by
  obtain ⟨a, ha, hea⟩ := List.any_eq_true.mp hf
  obtain ⟨b, hb, heb⟩ := List.any_eq_true.mp hg
  have h1 : pyNorm c = pyLower a := by simpa using hea
  have h2 : pyNorm c = pyLower b := by simpa using heb
  by_contra hne
  exact alias_lower_disjoint f g hne a ha b hb (h1.symm.trans h2)

theorem normAux_error_iff (cols : List String) :
    ∀ (fs : List Field) (f : Field),
      normAux cols fs = .error f ↔
        fs.find? (fun g => (findCol cols g).isNone) = some f := by
  intro fs
  induction fs with
  | nil => intro f; simp [normAux]
  | cons g gs ih =>
    intro f
    cases hg : findCol cols g with
    | none =>
      rw [List.find?_cons_of_pos _ (by simp [hg])]
      simp [normAux, hg]
    | some c =>
      rw [List.find?_cons_of_neg _ (by simp [hg])]
      rw [← ih f]
      simp [normAux, hg, exceptMap_error]

theorem normAux_ok_spec (cols : List String) :
    ∀ (fs : List Field) (m : List (String × Field)),
      normAux cols fs = .ok m →
        m.map Prod.snd = fs ∧ ∀ p ∈ m, findCol cols p.2 = some p.1 := by
  intro fs
  induction fs with
  | nil =>
    intro m h
    simp [normAux] at h
    subst h
    simp
  | cons g gs ih =>
    intro m h
    cases hg : findCol cols g with
    | none => rw [normAux, hg] at h; exact absurd h (by simp)
    | some c =>
      rw [normAux, hg] at h
      cases hrest : normAux cols gs with
      | error e => rw [hrest] at h; exact absurd h (by simp [Except.map])
      | ok m2 =>
        rw [hrest] at h
        simp [Except.map] at h
        obtain ⟨hm, hspec⟩ := ih m2 hrest
        subst h
        refine ⟨by simp [hm], ?_⟩
        intro p hp
        rcases List.mem_cons.mp hp with h1 | h2
        · subst h1; exact hg
        · exact hspec p h2

theorem normAux_ok_nodup (cols : List String) :
    ∀ (fs : List Field) (m : List (String × Field)),
      fs.Nodup → normAux cols fs = .ok m → (m.map Prod.fst).Nodup := by
  intro fs
  induction fs with
  | nil =>
    intro m _ h
    simp [normAux] at h
    subst h
    simp
  | cons g gs ih =>
    intro m hnd h
    cases hg : findCol cols g with
    | none => rw [normAux, hg] at h; exact absurd h (by simp)
    | some c =>
      rw [normAux, hg] at h
      cases hrest : normAux cols gs with
      | error e => rw [hrest] at h; exact absurd h (by simp [Except.map])
      | ok m2 =>
        rw [hrest] at h
        simp [Except.map] at h
        subst h
        simp only [List.map_cons, List.nodup_cons]
        obtain ⟨hsnd, hspec⟩ := normAux_ok_spec cols gs m2 hrest
        refine ⟨?_, ih m2 (List.nodup_cons.mp hnd).2 hrest⟩
        intro hc
        obtain ⟨p, hp, hpc⟩ := List.mem_map.mp hc
        have hmc : matchesField c g = true := findCol_matches hg
        have hmp : matchesField p.1 p.2 = true := findCol_matches (hspec p hp)
        rw [hpc] at hmp
        have : p.2 = g := matchesField_det c p.2 g hmp hmc
        have hsndmem : p.2 ∈ m2.map Prod.snd := List.mem_map_of_mem Prod.snd hp
        rw [hsnd, this] at hsndmem
        exact (List.nodup_cons.mp hnd).1 hsndmem

/-! ### Lemmas about keepFirsts and dupCount -/

theorem keepFirstsAux_length [DecidableEq α] (l : List α) :
    ∀ seen : List α,
      (keepFirstsAux seen l).length + dupCountAux seen l = l.length := by
  induction l with
  | nil => intro seen; simp [keepFirstsAux, dupCountAux]
  | cons x xs ih =>
    intro seen
    by_cases hx : x ∈ seen
    · simp only [keepFirstsAux, dupCountAux, if_pos hx, List.length_cons]
      have h := ih seen
      omega
    · simp only [keepFirstsAux, dupCountAux, if_neg hx, List.length_cons]
      have h := ih (x :: seen)
      omega

theorem keepFirsts_length [DecidableEq α] (l : List α) :
    (keepFirsts l).length + dupCount l = l.length :=
  keepFirstsAux_length l []

theorem keepFirstsAux_sublist [DecidableEq α] (l : List α) :
    ∀ seen : List α, (keepFirstsAux seen l).Sublist l := by
  induction l with
  | nil => intro seen; simp [keepFirstsAux]
  | cons x xs ih =>
    intro seen
    by_cases hx : x ∈ seen
    · simp only [keepFirstsAux, if_pos hx]
      exact (ih seen).cons x
    · simp only [keepFirstsAux, if_neg hx]
      exact (ih (x :: seen)).cons₂ x

theorem keepFirstsAux_mem [DecidableEq α] (l : List α) :
    ∀ (seen : List α) (x : α),
      x ∈ keepFirstsAux seen l ↔ x ∈ l ∧ x ∉ seen := by
  induction l with
  | nil => intro seen x; simp [keepFirstsAux]
  | cons y ys ih =>
    intro seen x
    by_cases hy : y ∈ seen
    · simp only [keepFirstsAux, if_pos hy, ih, List.mem_cons]
      constructor
      · rintro ⟨h1, h2⟩; exact ⟨Or.inr h1, h2⟩
      · rintro ⟨h1 | h1, h2⟩
        · subst h1; exact absurd hy h2
        · exact ⟨h1, h2⟩
    · simp only [keepFirstsAux, if_neg hy, List.mem_cons, ih, List.mem_cons]
      by_cases hxy : x = y
      · subst hxy; simp [hy]
      · simp [hxy]

theorem keepFirstsAux_nodup [DecidableEq α] (l : List α) :
    ∀ seen : List α, (keepFirstsAux seen l).Nodup := by
  induction l with
  | nil => intro seen; simp [keepFirstsAux]
  | cons y ys ih =>
    intro seen
    by_cases hy : y ∈ seen
    · simp only [keepFirstsAux, if_pos hy]
      exact ih seen
    · simp only [keepFirstsAux, if_neg hy]
      rw [List.nodup_cons]
      refine ⟨?_, ih (y :: seen)⟩
      intro hmem
      have h := (keepFirstsAux_mem ys (y :: seen) y).mp hmem
      exact h.2 (List.mem_cons_self y seen)

/-! ### Lemmas about processFiles -/

theorem processFiles_error_iff :
    ∀ fs : List SrcFile,
      (∃ e, processFiles fs = .error e) ↔ ∃ f ∈ fs, badFile f = true := by
  intro fs
  induction fs with
  | nil => simp [processFiles]
  | cons f fs ih =>
    cases hc : f.content with
    | none =>
      simp only [processFiles, hc]
      constructor
      · intro _; exact ⟨f, List.mem_cons_self f fs, by simp [badFile, hc]⟩
      · intro _; exact ⟨.errProcessing f.name, rfl⟩
    | some raw =>
      cases hn : normalize_column_names raw.columns with
      | error fld =>
        simp only [processFiles, hc, hn]
        constructor
        · intro _; exact ⟨f, List.mem_cons_self f fs, by simp [badFile, hc, hn]⟩
        · intro _; exact ⟨.errMissingColumn f.name fld, rfl⟩
      | ok m =>
        have hbf : badFile f = false := by simp [badFile, hc, hn]
        cases hrest : processFiles fs with
        | error e =>
          simp only [processFiles, hc, hn, hrest]
          constructor
          · intro _
            obtain ⟨g, hg, hbg⟩ := ih.mp ⟨e, hrest⟩
            exact ⟨g, List.mem_cons_of_mem f hg, hbg⟩
          · intro _; exact ⟨e, rfl⟩
        | ok pair =>
          simp only [processFiles, hc, hn, hrest]
          constructor
          · rintro ⟨e, he⟩; exact absurd he (by simp)
          · rintro ⟨g, hg, hbg⟩
            rcases List.mem_cons.mp hg with h1 | h2
            · subst h1; rw [hbf] at hbg; exact absurd hbg (by simp)
            · obtain ⟨e, he⟩ := ih.mpr ⟨g, h2, hbg⟩
              rw [he] at hrest
              exact absurd hrest (by simp)

theorem processFiles_ok_of_good {fs : List SrcFile}
    (h : ∀ f ∈ fs, badFile f = false) :
    ∃ pair, processFiles fs = .ok pair := by
  cases hp : processFiles fs with
  | error e =>
    obtain ⟨g, hg, hbg⟩ := (processFiles_error_iff fs).mp ⟨e, hp⟩
    rw [h g hg] at hbg
    exact absurd hbg (by simp)
  | ok pair => exact ⟨pair, rfl⟩

/-! ### Unfolding and size lemmas for clean_data -/

theorem clean_data_eq (t : Table) :
    clean_data t =
      { team_name := astypeStrStrip t.team_name
        date := to_datetime (astypeStrStrip t.date)
        site := astypeStrStrip t.site
        opp_name := astypeStrStrip t.opp_name
        w_l := astypeStrStrip t.w_l
        pts := to_numeric (astypeStrStrip t.pts)
        opp_pts := to_numeric (astypeStrStrip t.opp_pts) } := rfl

theorem astypeStrStrip_size (c : Col) : (astypeStrStrip c).size = c.size := by
  cases c <;> simp [astypeStrStrip, Col.size]

theorem to_datetime_size (c : Col) : (to_datetime c).size = c.size := by
  cases c <;> simp [to_datetime, Col.size]

theorem to_numeric_size (c : Col) : (to_numeric c).size = c.size := by
  cases c <;> simp [to_numeric, Col.size]

/-! ### Claim theorems -/

/-- C5: cleaning is idempotent: for every input table over the seven
canonical columns, applying clean_data a second time produces a result
identical to applying it once. -/
theorem clean_data_idem (t : Table) : clean_data (clean_data t) = clean_data t := by
  rw [clean_data_eq t, clean_data_eq]
  simp only [astypeStrStrip_idem, to_datetime_stable, to_numeric_stable]

/-- C6: clean_data is a total function (so cleaning never raises and
never aborts the run) and it preserves every column size, so every row
is retained; an unparseable date cell degrades to null in the parsed
date column, and an unparseable pts or opp_pts cell degrades to null in
the numeric column, the row persisting with those nulls. -/
theorem clean_data_total_nulls (t : Table) :
    colSizes (clean_data t) = colSizes t ∧
    (∀ (cells : List (Option String)) (i : Nat) (s : String), t.date = .obj cells → cells[i]? = some (some s) →
      parseDate (pyStrip s) = none →
      ∃ cs, (clean_data t).date = .dt cs ∧ cs[i]? = some none) ∧
    (∀ (cells : List (Option String)) (i : Nat) (s : String), t.pts = .obj cells → cells[i]? = some (some s) →
      parseNum (pyStrip s) = none →
      ∃ cs, (clean_data t).pts = .num cs ∧ cs[i]? = some none) ∧
    (∀ (cells : List (Option String)) (i : Nat) (s : String), t.opp_pts = .obj cells → cells[i]? = some (some s) →
      parseNum (pyStrip s) = none →
      ∃ cs, (clean_data t).opp_pts = .num cs ∧ cs[i]? = some none) := by
  refine ⟨?_, ?_, ?_, ?_⟩
  · simp [colSizes, clean_data_eq, astypeStrStrip_size, to_datetime_size, to_numeric_size]
  · intro cells i s hd hi hp
    refine ⟨(cells.map (fun v => some (pyStrip (objStr v)))).map (fun v => v.bind parseDate),
      by rw [clean_data_eq]; simp [hd, astypeStrStrip, to_datetime], ?_⟩
    rw [List.map_map, List.getElem?_map, hi]
    simp [Function.comp, objStr, hp]
  · intro cells i s hd hi hp
    refine ⟨(cells.map (fun v => some (pyStrip (objStr v)))).map (fun v => v.bind parseNum),
      by rw [clean_data_eq]; simp [hd, astypeStrStrip, to_numeric], ?_⟩
    rw [List.map_map, List.getElem?_map, hi]
    simp [Function.comp, objStr, hp]
  · intro cells i s hd hi hp
    refine ⟨(cells.map (fun v => some (pyStrip (objStr v)))).map (fun v => v.bind parseNum),
      by rw [clean_data_eq]; simp [hd, astypeStrStrip, to_numeric], ?_⟩
    rw [List.map_map, List.getElem?_map, hi]
    simp [Function.comp, objStr, hp]

/-- Witness for C6 at a concrete table: one row whose date cell reads
not-a-date and whose pts cell reads abc; both clean to null and the row
is retained. -/
theorem clean_data_total_nulls_witness :
    (∃ cs, (clean_data
        { team_name := .obj [some "Duke"], date := .obj [some "not-a-date"],
          site := .obj [some "Home"], opp_name := .obj [some "UNC"],
          w_l := .obj [some "W"], pts := .obj [some "abc"],
          opp_pts := .obj [some "60"] }).date = .dt cs ∧ cs[0]? = some none) ∧
    (∃ cs, (clean_data
        { team_name := .obj [some "Duke"], date := .obj [some "not-a-date"],
          site := .obj [some "Home"], opp_name := .obj [some "UNC"],
          w_l := .obj [some "W"], pts := .obj [some "abc"],
          opp_pts := .obj [some "60"] }).pts = .num cs ∧ cs[0]? = some none) ∧
    colSizes (clean_data
        { team_name := .obj [some "Duke"], date := .obj [some "not-a-date"],
          site := .obj [some "Home"], opp_name := .obj [some "UNC"],
          w_l := .obj [some "W"], pts := .obj [some "abc"],
          opp_pts := .obj [some "60"] }) =
      colSizes
        { team_name := .obj [some "Duke"], date := .obj [some "not-a-date"],
          site := .obj [some "Home"], opp_name := .obj [some "UNC"],
          w_l := .obj [some "W"], pts := .obj [some "abc"],
          opp_pts := .obj [some "60"] } := by
  refine ⟨?_, ?_, ?_⟩
  · exact (clean_data_total_nulls _).2.1 [some "not-a-date"] 0 "not-a-date" rfl rfl (by decide)
  · exact (clean_data_total_nulls _).2.2.1 [some "abc"] 0 "abc" rfl rfl (by decide)
  · exact (clean_data_total_nulls _).1

/-- C10: clean_data converts every cell of a string-typed column with
astype(str) before stripping, so a missing cell of an object column such
as team_name is output as the literal non-null string nan rather than
remaining null. -/
theorem clean_data_nan_literal (t : Table) :
    ∀ (cells : List (Option String)) (i : Nat), t.team_name = .obj cells → cells[i]? = some none →
      ∃ cs, (clean_data t).team_name = .obj cs ∧ cs[i]? = some (some "nan") := by
  intro cells i ht hi
  refine ⟨cells.map (fun v => some (pyStrip (objStr v))),
    by rw [clean_data_eq]; simp [ht, astypeStrStrip], ?_⟩
  rw [List.getElem?_map, hi]
  have : pyStrip (objStr none) = "nan" := by decide
  simp [this]

/-- Witness for C10 at a concrete table: a null team_name cell becomes
the literal string nan. -/
theorem clean_data_nan_literal_witness :
    ∃ cs, (clean_data
        { team_name := .obj [none], date := .obj [some "2023-01-01"],
          site := .obj [some "Home"], opp_name := .obj [some "UNC"],
          w_l := .obj [some "W"], pts := .obj [some "70"],
          opp_pts := .obj [some "60"] }).team_name = .obj cs ∧
      cs[0]? = some (some "nan") :=
  clean_data_nan_literal _ [none] 0 rfl rfl

/-- C3: normalize_column_names fails exactly when some canonical field
has no matching source column, and the failure names exactly the first
unmet field in the fixed canonical order; by the Except result type no
partial mapping is returned on failure, and the scan stops at the first
unmet field by construction of normAux. -/
theorem normalize_fail_first_unmet :
    ∀ cols : List String,
      (∀ f : Field, normalize_column_names cols = .error f ↔ firstUnmet cols = some f) ∧
      ((∃ m, normalize_column_names cols = .ok m) ↔ firstUnmet cols = none) := by
  intro cols
  refine ⟨fun f => normAux_error_iff cols fieldOrder f, ?_, ?_⟩
  · rintro ⟨m, hm⟩
    cases hfu : firstUnmet cols with
    | none => rfl
    | some f =>
      have herr := (normAux_error_iff cols fieldOrder f).mpr hfu
      have h2 := herr.symm.trans hm
      exact absurd h2 (by simp)
  · intro hfu
    cases hn : normalize_column_names cols with
    | error f =>
      have hsome := (normAux_error_iff cols fieldOrder f).mp hn
      have h2 : firstUnmet cols = some f := hsome
      rw [hfu] at h2
      exact absurd h2 (by simp)
    | ok m => exact ⟨m, rfl⟩

/-- C4: a source column whose name equals an alias of canonical field f
up to letter case and surrounding whitespace makes resolution of f
succeed: the first matching column in list order is bound to f in every
successful mapping, and no column matching an alias of f is ever bound
to a different canonical field. -/
theorem alias_binds_correct_field (cols : List String) (f : Field) (a c : String)
    (ha : a ∈ target_columns f) (hc : c ∈ cols)
    (heq : pyNorm c = pyNorm a) :
    (∃ c0, findCol cols f = some c0 ∧
      ∀ m, normalize_column_names cols = .ok m → (c0, f) ∈ m) ∧
    (∀ (m : List (String × Field)) (c2 : String) (g : Field),
      normalize_column_names cols = .ok m → (c2, g) ∈ m →
      matchesField c2 f = true → g = f) := by
  have hmc : matchesField c f = true := by
    rw [matchesField, List.any_eq_true]
    exact ⟨a, ha, by rw [beq_iff_eq, heq]; exact alias_norm_fixed f a ha⟩
  constructor
  · cases hfc : findCol cols f with
    | none =>
      exfalso
      rw [findCol] at hfc
      exact List.find?_eq_none.mp hfc c hc hmc
    | some c0 =>
      refine ⟨c0, rfl, ?_⟩
      intro m hm
      obtain ⟨hsnd, hspec⟩ := normAux_ok_spec cols fieldOrder m hm
      have hf : f ∈ m.map Prod.snd := by rw [hsnd]; exact field_mem_order f
      obtain ⟨p, hp, hps⟩ := List.mem_map.mp hf
      obtain ⟨p1, p2⟩ := p
      simp only at hps
      have hfind := hspec (p1, p2) hp
      simp only at hfind
      rw [hps, hfc] at hfind
      have hp1 : c0 = p1 := by injection hfind
      rw [hp1, ← hps]
      exact hp
  · intro m c2 g hm hmem hmf
    obtain ⟨hsnd, hspec⟩ := normAux_ok_spec cols fieldOrder m hm
    have hmg : matchesField c2 g = true := findCol_matches (hspec (c2, g) hmem)
    exact matchesField_det c2 g f hmg hmf

/-- Witness for C4: the column Team with surrounding space matches the
alias team of team_name in a fully resolvable header list. -/
theorem alias_binds_correct_field_witness :
    ("team" ∈ target_columns Field.team_name ∧
      " Team " ∈ ([" Team ", "GameDate", "Venue", "Opponent", "Result", "Points", "OPP_SCORE"] : List String) ∧
      pyNorm " Team " = pyNorm "team") ∧
    ((∃ c0, findCol [" Team ", "GameDate", "Venue", "Opponent", "Result", "Points", "OPP_SCORE"]
        Field.team_name = some c0 ∧
      ∀ m, normalize_column_names
          [" Team ", "GameDate", "Venue", "Opponent", "Result", "Points", "OPP_SCORE"] = .ok m →
        (c0, Field.team_name) ∈ m) ∧
    (∀ (m : List (String × Field)) (c2 : String) (g : Field),
      normalize_column_names
          [" Team ", "GameDate", "Venue", "Opponent", "Result", "Points", "OPP_SCORE"] = .ok m →
      (c2, g) ∈ m → matchesField c2 Field.team_name = true → g = Field.team_name)) :=
  ⟨⟨by decide, by decide, by decide⟩,
    alias_binds_correct_field
      [" Team ", "GameDate", "Venue", "Opponent", "Result", "Points", "OPP_SCORE"]
      Field.team_name "team" " Team " (by decide) (by decide) (by decide)⟩

/-- C9: every successful mapping has exactly seven entries, its values
are exactly the seven canonical fields each once (in canonical order),
its keys are distinct source columns, and the alias lists of distinct
canonical fields are disjoint so no column name ever matches two
canonical fields. -/
theorem normalize_ok_mapping_shape (cols : List String) (m : List (String × Field))
    (h : normalize_column_names cols = .ok m) :
    m.length = 7 ∧ m.map Prod.snd = fieldOrder ∧ (m.map Prod.fst).Nodup ∧
    (∀ (c : String) (f g : Field),
      matchesField c f = true → matchesField c g = true → f = g) := by
  obtain ⟨hsnd, _⟩ := normAux_ok_spec cols fieldOrder m h
  refine ⟨?_, hsnd, normAux_ok_nodup cols fieldOrder m fieldOrder_nodup h,
    fun c f g => matchesField_det c f g⟩
  have hlen := congrArg List.length hsnd
  simpa using hlen

/-- Witness for C9 at a concrete header list that resolves through seven
distinct alias spellings. -/
theorem normalize_ok_mapping_shape_witness :
    normalize_column_names ["Team", "GameDate", "Venue", "Opponent", "Result", "Points", "OPP_SCORE"] =
      .ok [("Team", Field.team_name), ("GameDate", Field.date), ("Venue", Field.site),
           ("Opponent", Field.opp_name), ("Result", Field.w_l), ("Points", Field.pts),
           ("OPP_SCORE", Field.opp_pts)] ∧
    ([("Team", Field.team_name), ("GameDate", Field.date), ("Venue", Field.site),
      ("Opponent", Field.opp_name), ("Result", Field.w_l), ("Points", Field.pts),
      ("OPP_SCORE", Field.opp_pts)].length = 7 ∧
     [("Team", Field.team_name), ("GameDate", Field.date), ("Venue", Field.site),
      ("Opponent", Field.opp_name), ("Result", Field.w_l), ("Points", Field.pts),
      ("OPP_SCORE", Field.opp_pts)].map Prod.snd = fieldOrder ∧
     ([("Team", Field.team_name), ("GameDate", Field.date), ("Venue", Field.site),
       ("Opponent", Field.opp_name), ("Result", Field.w_l), ("Points", Field.pts),
       ("OPP_SCORE", Field.opp_pts)].map Prod.fst).Nodup ∧
     (∀ (c : String) (f g : Field),
       matchesField c f = true → matchesField c g = true → f = g)) :=
  ⟨by decide,
    normalize_ok_mapping_shape
      ["Team", "GameDate", "Venue", "Opponent", "Result", "Points", "OPP_SCORE"] _ (by decide)⟩

/-! ### Pipeline claim theorems -/

/-- C1 counterexample: with exactly one discovered CSV file the
drop_duplicates step is skipped, so a run over a single file holding the
same row twice succeeds and hands the Loader a table with two identical
rows, contradicting the claim that the dataset handed to the Loader
never contains two rows equal on all seven canonical fields. -/
theorem dedup_single_file_counterexample :
    c1Env.files.length = 1 ∧
    (runMain c1Env).exitCode = 0 ∧
    ¬ (runMain c1Env).store.Nodup := by
  refine ⟨by decide, by decide, by decide⟩

/-- C1 amended: only when more than one source file is discovered is the
concatenated dataset deduplicated; then the result keeps the first
occurrence of each row in concatenation order (it is a duplicate-free
sublist of the concatenation with the same members) and its row count
equals the concatenated row count minus the number of exact-duplicate
rows. -/
theorem dedup_multi_file_only (ts : List (List CRow)) (h : 1 < ts.length) :
    combine ts = keepFirsts ts.flatten ∧
    (combine ts).length + dupCount ts.flatten = ts.flatten.length ∧
    (combine ts).Sublist ts.flatten ∧
    (combine ts).Nodup ∧
    (∀ r : CRow, r ∈ combine ts ↔ r ∈ ts.flatten) := by
  have hc : combine ts = keepFirsts ts.flatten := by rw [combine, if_pos h]
  refine ⟨hc, ?_, ?_, ?_, ?_⟩
  · rw [hc]; exact keepFirsts_length ts.flatten
  · rw [hc]; exact keepFirstsAux_sublist ts.flatten []
  · rw [hc]; exact keepFirstsAux_nodup ts.flatten []
  · intro r
    rw [hc, keepFirsts, keepFirstsAux_mem]
    simp

/-- Witness for the amended C1 at two concrete source tables sharing a
duplicated row: three concatenated rows, one duplicate, two kept. -/
theorem dedup_multi_file_only_witness :
    1 < c1Tables.length ∧
    (combine c1Tables = keepFirsts c1Tables.flatten ∧
     (combine c1Tables).length + dupCount c1Tables.flatten = c1Tables.flatten.length ∧
     (combine c1Tables).Sublist c1Tables.flatten ∧
     (combine c1Tables).Nodup ∧
     (∀ r : CRow, r ∈ combine c1Tables ↔ r ∈ c1Tables.flatten)) :=
  ⟨by decide, dedup_multi_file_only c1Tables (by decide)⟩

/-- C2 counterexample: a run whose read-back count (0) differs from the
written row count (1) emits no warning at all — the mismatch is not
detected, the write is kept and the exit code is success — contradicting
the claim that the mismatch is reported as a warning. -/
theorem verify_mismatch_counterexample :
    (runMain c2Env).events = [.savedRows 1, .verifiedCount 0, .completed] ∧
    (1 : Nat) ≠ 0 ∧
    (∀ e ∈ (runMain c2Env).events, isWarning e = false) ∧
    (runMain c2Env).exitCode = 0 ∧
    (runMain c2Env).writeAttempted = true ∧
    (runMain c2Env).store ≠ c2Env.store0 := by
  refine ⟨by decide, by decide, by decide, by decide, by decide, by decide⟩

/-- C2 amended: the pipeline never compares the read-back count to the
written count — whenever the count query succeeds the run exits
successfully, prints the saved count and the read-back count as separate
messages without any warning, and keeps the written data, whether or not
the two counts agree; only a failing count query produces a (still
non-fatal) warning. -/
theorem verify_mismatch_unreported (env : Env) (ts : List (List CRow)) (tot n : Nat)
    (hacq : env.acqOk = true) (hne : env.files ≠ [])
    (hpf : processFiles env.files = .ok (ts, tot))
    (hw : env.writeOk = true) (hv : env.verify = some n) :
    (runMain env).exitCode = 0 ∧
    (runMain env).writeAttempted = true ∧
    (runMain env).store =
      applyWrite env.mode env.store0 (rowsOf (clean_data (toTable (combine ts)))) ∧
    (runMain env).events =
      [.savedRows (rowsOf (clean_data (toTable (combine ts)))).length,
       .verifiedCount n, .completed] ∧
    ∀ e ∈ (runMain env).events, isWarning e = false := by
  have hie : env.files.isEmpty = false := by
    cases hf : env.files with
    | nil => exact absurd hf hne
    | cons a l => rfl
  have hr : runMain env =
      { exitCode := 0
        events := [.savedRows (rowsOf (clean_data (toTable (combine ts)))).length,
                   .verifiedCount n, .completed]
        writeAttempted := true
        store := applyWrite env.mode env.store0
          (rowsOf (clean_data (toTable (combine ts)))) } := by
    rw [runMain, hacq, hie, hpf, hw, hv]
    rfl
  rw [hr]
  refine ⟨rfl, rfl, rfl, rfl, ?_⟩
  intro e he
  rcases List.mem_cons.mp he with h1 | h2
  · rw [h1]; rfl
  · rcases List.mem_cons.mp h2 with h3 | h4
    · rw [h3]; rfl
    · rcases List.mem_cons.mp h4 with h5 | h6
      · rw [h5]; rfl
      · exact absurd h6 (List.not_mem_nil e)

/-- Witness for the amended C2: a concrete run writing two rows whose
read-back count query returns one completes successfully with no
warning. -/
theorem verify_mismatch_unreported_witness :
    (c2wEnv.acqOk = true ∧ c2wEnv.files ≠ [] ∧
     processFiles c2wEnv.files = .ok (c2wTables, 2) ∧
     c2wEnv.writeOk = true ∧ c2wEnv.verify = some 1) ∧
    ((runMain c2wEnv).exitCode = 0 ∧
     (runMain c2wEnv).writeAttempted = true ∧
     (runMain c2wEnv).store =
       applyWrite c2wEnv.mode c2wEnv.store0
         (rowsOf (clean_data (toTable (combine c2wTables)))) ∧
     (runMain c2wEnv).events =
       [.savedRows (rowsOf (clean_data (toTable (combine c2wTables)))).length,
        .verifiedCount 1, .completed] ∧
     ∀ e ∈ (runMain c2wEnv).events, isWarning e = false) :=
  ⟨⟨by decide, by decide, by decide, by decide, by decide⟩,
    verify_mismatch_unreported c2wEnv c2wTables 2 1
      (by decide) (by decide) (by decide) (by decide) (by decide)⟩

/-- C7 counterexample: a run whose single CSV file fails to load (the
read raises) exits with a failure code although acquisition succeeded,
input files exist, schema resolution failed for no source, and the
database write oracle would succeed — so the claimed list of failure
conditions is not exhaustive. -/
theorem exit_code_counterexample :
    (runMain c7Env).exitCode ≠ 0 ∧
    c7Env.acqOk = true ∧
    c7Env.files ≠ [] ∧
    (∀ f ∈ c7Env.files, resolutionFails f = false) ∧
    c7Env.writeOk = true := by
  refine ⟨by decide, by decide, by decide, by decide, by decide⟩

/-- C7 amended: the run exits with a failure code exactly when
acquisition fails, no CSV files are found, loading or schema resolution
of some source file fails, or the database write fails; in every other
case — including a verification mismatch or a failing verification
query — it exits successfully. -/
theorem exit_code_characterisation (env : Env) :
    (runMain env).exitCode ≠ 0 ↔
      (env.acqOk = false ∨ env.files = [] ∨
        (∃ f ∈ env.files, badFile f = true) ∨ env.writeOk = false) := by
  by_cases hacq : env.acqOk = false
  · simp [runMain, hacq]
  · have hacq2 : env.acqOk = true := by
      revert hacq; cases env.acqOk <;> simp
    by_cases hemp : env.files = []
    · have hie : env.files.isEmpty = true := by rw [hemp]; rfl
      simp [runMain, hacq2, hie, hemp]
    · have hie : env.files.isEmpty = false := by
        cases hf : env.files with
        | nil => exact absurd hf hemp
        | cons a l => rfl
      cases hpf : processFiles env.files with
      | error e =>
        have hbad : ∃ f ∈ env.files, badFile f = true :=
          (processFiles_error_iff env.files).mp ⟨e, hpf⟩
        simp [runMain, hacq2, hie, hpf, hemp, hbad]
      | ok pair =>
        have hnobad : ¬ ∃ f ∈ env.files, badFile f = true := by
          intro hex
          obtain ⟨e2, he2⟩ := (processFiles_error_iff env.files).mpr hex
          exact absurd (he2.symm.trans hpf) (by simp)
        obtain ⟨ts, tot⟩ := pair
        by_cases hw : env.writeOk = false
        · simp [runMain, hacq2, hie, hpf, hw, hemp, hnobad]
        · have hw2 : env.writeOk = true := by
            revert hw; cases env.writeOk <;> simp
          cases hv : env.verify with
          | some n => simp [runMain, hacq2, hie, hpf, hw2, hv, hemp, hnobad, hacq]
          | none => simp [runMain, hacq2, hie, hpf, hw2, hv, hemp, hnobad, hacq]

/-- C8: if the run fails before the persist step — acquisition failure,
no input files, or a failing source load or schema resolution — the
write is never attempted and the store keeps its prior content
unchanged. -/
theorem prepersist_failure_no_write (env : Env)
    (h : env.acqOk = false ∨ env.files = [] ∨ ∃ f ∈ env.files, badFile f = true) :
    (runMain env).writeAttempted = false ∧ (runMain env).store = env.store0 := by
  by_cases hacq : env.acqOk = false
  · simp [runMain, hacq]
  · have hacq2 : env.acqOk = true := by
      revert hacq; cases env.acqOk <;> simp
    by_cases hemp : env.files = []
    · have hie : env.files.isEmpty = true := by rw [hemp]; rfl
      simp [runMain, hacq2, hie]
    · have hie : env.files.isEmpty = false := by
        cases hf : env.files with
        | nil => exact absurd hf hemp
        | cons a l => rfl
      have hbad : ∃ f ∈ env.files, badFile f = true := by
        rcases h with h1 | h2 | h3
        · exact absurd h1 hacq
        · exact absurd h2 hemp
        · exact h3
      obtain ⟨e, he⟩ := (processFiles_error_iff env.files).mpr hbad
      simp [runMain, hacq2, hie, he]

/-- Witness for C8: a run over one unresolvable source file leaves a
nonempty prior store untouched and never attempts the write. -/
theorem prepersist_failure_no_write_witness :
    (c8Env.acqOk = false ∨ c8Env.files = [] ∨ ∃ f ∈ c8Env.files, badFile f = true) ∧
    ((runMain c8Env).writeAttempted = false ∧ (runMain c8Env).store = c8Env.store0) :=
  ⟨by decide, prepersist_failure_no_write c8Env (by decide)⟩

end CbbETL
